import Mathlib

/-!
Verification of the path-resolution and template-rendering core of the
`phishingclub/templates` repository (`internal/handler/handler.go`).

Go strings are modelled as byte lists (`GoStr := List Nat`, each entry one
byte).  All helper literals used below are pure ASCII, so `goStr` (which maps
each character to its code point) produces exactly the byte sequence of the
corresponding Go string literal.  Filesystem probes (`os.Stat` existence
checks) are modelled by a predicate `fs : GoStr → Bool` passed explicitly.
The process working directory used by Go's `filepath.Abs` is an explicit
`cwd` parameter (assumed to be what `os.Getwd` would return).

Every function is translated from the Go source; standard-library helpers
(`strings.*`, `path/filepath` on Unix, `net/url.QueryUnescape`,
`html.UnescapeString`, `unicode/utf8`) are given byte-exact models, except
where a comment states the modelled fragment.
-/

namespace Templates

/-- A Go string: a list of byte values. -/
abbrev GoStr := List Nat

/-- Byte list of an ASCII Lean string literal (code point = byte for ASCII). -/
def goStr (s : String) : GoStr := s.data.map Char.toNat

/-- Go `strings.Contains`. -/
def goContains (s sub : GoStr) : Bool :=
  match s with
  | [] => sub.isPrefixOf []
  | c :: rest => sub.isPrefixOf (c :: rest) || goContains rest sub

/-- Fuel-driven core of `strings.Replace(s, old, new, -1)`; `fuel ≥ s.length`
consumes the whole string (each step drops at least one byte of `s`).
All call sites in the source use a nonempty `old`. -/
def goReplaceAllF : Nat → GoStr → GoStr → GoStr → GoStr
  | 0, s, _, _ => s
  | _ + 1, [], _, _ => []
  | fuel + 1, c :: rest, old, new =>
    if old ≠ [] ∧ old.isPrefixOf (c :: rest) then
      new ++ goReplaceAllF fuel ((c :: rest).drop old.length) old new
    else
      c :: goReplaceAllF fuel rest old new

/-- Go `strings.Replace(s, old, new, -1)` (nonempty `old`). -/
def goReplaceAll (s old new : GoStr) : GoStr := goReplaceAllF s.length s old new

/-- Go `strings.TrimLeft(s, "/")`: drop every leading `/` byte. -/
def trimLeftSlash (s : GoStr) : GoStr := s.dropWhile (fun b => b = 47)

/-- Go `strings.TrimRight(s, "/")`: drop every trailing `/` byte. -/
def trimRightSlash (s : GoStr) : GoStr := (s.reverse.dropWhile (fun b => b = 47)).reverse

/-- Go `strings.TrimPrefix`. -/
def goTrimLeading (s pre : GoStr) : GoStr :=
  if pre.isPrefixOf s then s.drop pre.length else s

/-- Go `strings.TrimSuffix`. -/
def goTrimTrailing (s suf : GoStr) : GoStr :=
  if suf.isSuffixOf s then s.take (s.length - suf.length) else s

/-- ASCII case folding.  Go's `strings.ToLower` is Unicode-aware; the traversal
patterns compared after lowering are pure ASCII, ASCII bytes never occur inside
a multi-byte UTF-8 encoding, and non-ASCII runes never lower-case to ASCII, so
the byte-wise ASCII fold yields the same `strings.Contains` results. -/
def toLowerAscii (s : GoStr) : GoStr :=
  s.map (fun b => if 65 ≤ b ∧ b ≤ 90 then b + 32 else b)

/-- Hex digit value, as in `net/url.unhex`. -/
def unhex (b : Nat) : Option Nat :=
  if 48 ≤ b ∧ b ≤ 57 then some (b - 48)
  else if 97 ≤ b ∧ b ≤ 102 then some (b - 97 + 10)
  else if 65 ≤ b ∧ b ≤ 70 then some (b - 65 + 10)
  else none

/-- Go `net/url.QueryUnescape`: percent-decodes, maps `+` to space, and fails
(`none`, modelling a non-nil `error`) on a malformed `%` escape. -/
def queryUnescape : GoStr → Option GoStr
  | [] => some []
  | 37 :: a :: b :: rest =>
    match unhex a, unhex b with
    | some x, some y => (queryUnescape rest).map (fun r => (16 * x + y) :: r)
    | _, _ => none
  | 37 :: _ => none
  | 43 :: rest => (queryUnescape rest).map (fun r => 32 :: r)
  | c :: rest => (queryUnescape rest).map (fun r => c :: r)

/-- UTF-8 encoding of a rune, as in Go `utf8.EncodeRune` (invalid runes encode
as U+FFFD). -/
def utf8Encode (r : Nat) : GoStr :=
  if r < 0x80 then [r]
  else if r < 0x800 then [0xC0 + r / 64, 0x80 + r % 64]
  else if 0xD800 ≤ r ∧ r ≤ 0xDFFF then [0xEF, 0xBF, 0xBD]
  else if r < 0x10000 then [0xE0 + r / 4096, 0x80 + r / 64 % 64, 0x80 + r % 64]
  else if r ≤ 0x10FFFF then
    [0xF0 + r / 0x40000, 0x80 + r / 4096 % 64, 0x80 + r / 64 % 64, 0x80 + r % 64]
  else [0xEF, 0xBF, 0xBD]

/-- Is `b` a UTF-8 continuation byte (`b & 0xC0 == 0x80`)? -/
def isContByte (b : Nat) : Bool := b &&& 0xC0 = 0x80

/-- One step of Go's UTF-8 decoding (`utf8.DecodeRune` semantics as used by
`range` over a string): returns the decoded rune and the number of bytes
consumed BEYOND the first one (so total width is that value plus one).
Invalid sequences decode to U+FFFD with width one. -/
def utf8DecodeStep (b : Nat) (rest : GoStr) : Nat × Nat :=
  if b < 0x80 then (b, 0)
  else if 0xC2 ≤ b ∧ b ≤ 0xDF then
    match rest with
    | c1 :: _ => if isContByte c1 then ((b - 0xC0) * 64 + (c1 - 0x80), 1) else (0xFFFD, 0)
    | [] => (0xFFFD, 0)
  else if 0xE0 ≤ b ∧ b ≤ 0xEF then
    match rest with
    | c1 :: c2 :: _ =>
      let lo1 := if b = 0xE0 then 0xA0 else 0x80
      let hi1 := if b = 0xED then 0x9F else 0xBF
      if lo1 ≤ c1 ∧ c1 ≤ hi1 ∧ isContByte c2 then
        ((b - 0xE0) * 4096 + (c1 - 0x80) * 64 + (c2 - 0x80), 2)
      else (0xFFFD, 0)
    | _ => (0xFFFD, 0)
  else if 0xF0 ≤ b ∧ b ≤ 0xF4 then
    match rest with
    | c1 :: c2 :: c3 :: _ =>
      let lo1 := if b = 0xF0 then 0x90 else 0x80
      let hi1 := if b = 0xF4 then 0x8F else 0xBF
      if lo1 ≤ c1 ∧ c1 ≤ hi1 ∧ isContByte c2 ∧ isContByte c3 then
        ((b - 0xF0) * 0x40000 + (c1 - 0x80) * 4096 + (c2 - 0x80) * 64 + (c3 - 0x80), 3)
      else (0xFFFD, 0)
    | _ => (0xFFFD, 0)
  else (0xFFFD, 0)

/-- Fuel-driven rune iteration (`for _, r := range s`); `fuel ≥ s.length`
decodes the whole string. -/
def runesOfF : Nat → GoStr → List Nat
  | 0, _ => []
  | _ + 1, [] => []
  | fuel + 1, b :: rest =>
    let (r, extra) := utf8DecodeStep b rest
    r :: runesOfF fuel (rest.drop extra)

/-- The rune sequence of a Go string (`range` iteration). -/
def runesOf (s : GoStr) : List Nat := runesOfF s.length s

/-- Windows-1252 re-mapping of numeric character references in the range
0x80–0x9F, as in the `html` package's replacement table. -/
def win1252 (x : Nat) : Nat :=
  match x with
  | 0x80 => 0x20AC
  | 0x82 => 0x201A
  | 0x83 => 0x0192
  | 0x84 => 0x201E
  | 0x85 => 0x2026
  | 0x86 => 0x2020
  | 0x87 => 0x2021
  | 0x88 => 0x02C6
  | 0x89 => 0x2030
  | 0x8A => 0x0160
  | 0x8B => 0x2039
  | 0x8C => 0x0152
  | 0x8E => 0x017D
  | 0x91 => 0x2018
  | 0x92 => 0x2019
  | 0x93 => 0x201C
  | 0x94 => 0x201D
  | 0x95 => 0x2022
  | 0x96 => 0x2013
  | 0x97 => 0x2014
  | 0x98 => 0x02DC
  | 0x99 => 0x2122
  | 0x9A => 0x0161
  | 0x9B => 0x203A
  | 0x9C => 0x0153
  | 0x9E => 0x017E
  | 0x9F => 0x0178
  | _ => x

/-- Value mapping for a numeric character reference (`html` package rules):
zero, out-of-range and surrogate code points map to U+FFFD, and the
0x80–0x9F range is re-mapped through the Windows-1252 table. -/
def numericEntityRune (x : Nat) : Nat :=
  let x := if x = 0 ∨ x > 0x10FFFF ∨ (0xD800 ≤ x ∧ x ≤ 0xDFFF) then 0xFFFD else x
  if 0x80 ≤ x ∧ x ≤ 0x9F then win1252 x else x

/-- Is `b` an ASCII decimal digit? -/
def isDigitByte (b : Nat) : Bool := 48 ≤ b ∧ b ≤ 57

/-- Parse a run of decimal (`hex = false`) or hexadecimal (`hex = true`)
digit bytes; returns the accumulated value and the number of bytes read.
The value accumulates in `Nat`; Go's `html` package accumulates in a `rune`
(`int32`) with wrap-around, which `tryEntity` reproduces by reducing the
value modulo 2^32 before mapping it (an affine recurrence wrapped at each
step equals the unwrapped value reduced once at the end, and every residue
at or above 2^31 — a negative `int32` — encodes as U+FFFD on both sides). -/
def parseDigitRun (hex : Bool) : GoStr → Nat × Nat
  | [] => (0, 0)
  | b :: rest =>
    match (if hex then unhex b else if isDigitByte b then some (b - 48) else none) with
    | some d =>
      let (v, n) := parseDigitRun hex rest
      -- digits accumulate most-significant first: fold below re-associates
      (d * (if hex then 16 else 10) ^ n + v, n + 1)
    | none => (0, 0)

/-- Named entities recognised by this model, with their code points.  Go's
`html.UnescapeString` knows the full HTML5 named-entity table (and some
semicolon-less legacy forms); this model covers the subset relevant to path
characters and markup.  No theorem below evaluates an input containing a
named entity outside this subset. -/
def namedEntities : List (GoStr × Nat) :=
  [ (goStr "amp;", 38), (goStr "lt;", 60), (goStr "gt;", 62),
    (goStr "quot;", 34), (goStr "apos;", 39), (goStr "sol;", 47),
    (goStr "period;", 46), (goStr "colon;", 58), (goStr "num;", 35),
    (goStr "bsol;", 92) ]

/-- Try to read one entity body immediately after a `&`.  Returns the
replacement bytes and the number of bytes consumed after the `&`, or `none`
when no entity is recognised (the `&` is then kept literally). -/
def tryEntity (s : GoStr) : Option (GoStr × Nat) :=
  match s with
  | 35 :: rest =>
    -- numeric reference &#... ; optional x/X selects hexadecimal
    let (hex, rest2, pre) :=
      match rest with
      | 120 :: r => (true, r, 2)
      | 88 :: r => (true, r, 2)
      | _ => (false, rest, 1)
    let (v, n) := parseDigitRun hex rest2
    if n = 0 then none
    else
      let semi := match rest2.drop n with
        | 59 :: _ => 1
        | _ => 0
      some (utf8Encode (numericEntityRune (v % 4294967296)), pre + n + semi)
  | _ =>
    namedEntities.findSome? (fun (name, r) =>
      if name.isPrefixOf s then some (utf8Encode r, name.length) else none)

/-- Fuel-driven core of `html.UnescapeString`; `fuel ≥ s.length` suffices
(each step consumes at least one byte). -/
def htmlUnescapeF : Nat → GoStr → GoStr
  | 0, s => s
  | _ + 1, [] => []
  | fuel + 1, 38 :: rest =>
    match tryEntity rest with
    | some (bytes, n) => bytes ++ htmlUnescapeF fuel (rest.drop n)
    | none => 38 :: htmlUnescapeF fuel rest
  | fuel + 1, c :: rest => c :: htmlUnescapeF fuel rest

/-- Go `html.UnescapeString` (modelled fragment; see `namedEntities`). -/
def htmlUnescape (s : GoStr) : GoStr := htmlUnescapeF s.length s

/-- One round of `decodeMultipleLayers`: URL-decode (keeping the input
unchanged when `QueryUnescape` fails) then HTML-entity-decode. -/
def decodeRound (s : GoStr) : GoStr :=
  let s1 := match queryUnescape s with
    | some d => d
    | none => s
  htmlUnescape s1

/-- The bounded decode loop: at most `n` rounds, stopping at a fixpoint. -/
def decodeIter : Nat → GoStr → GoStr
  | 0, s => s
  | n + 1, s =>
    let s' := decodeRound s
    if s' = s then s else decodeIter n s'

/-- `decodeMultipleLayers` from the source: up to five decode rounds.  The Go
function's only return statement is `return current, nil`, so the error value
is always nil; the `Except` mirrors the Go `(string, error)` signature. -/
def decodeMultipleLayers (input : GoStr) : Except Unit GoStr :=
  .ok (decodeIter 5 input)

/-- `isValidUTF8Start` from the source. -/
def isValidUTF8Start (bytes : GoStr) : Bool :=
  match bytes with
  | [] => false
  | b :: rest =>
    if b < 0x80 then true
    else if b < 0xC2 ∨ b > 0xF4 then false
    else if b < 0xE0 then
      match rest with
      | c1 :: _ => isContByte c1
      | [] => false
    else if b < 0xF0 then
      match rest with
      | c1 :: c2 :: _ => isContByte c1 && isContByte c2
      | _ => false
    else
      match rest with
      | c1 :: c2 :: c3 :: _ => isContByte c1 && isContByte c2 && isContByte c3
      | _ => false

/-- `sanitizeUTF8` from the source: collapse the overlong encodings
`0xC0 0xAE` / `0xC0 0xAF` of `.` / `/`, keep ASCII bytes and bytes that start
a valid UTF-8 sequence, drop everything else (one byte at a time). -/
def sanitizeUTF8 : GoStr → GoStr
  | [] => []
  | 0xC0 :: 0xAE :: rest => 0x2E :: sanitizeUTF8 rest
  | 0xC0 :: 0xAF :: rest => 0x2F :: sanitizeUTF8 rest
  | b :: rest =>
    (if b < 0x80 ∨ isValidUTF8Start (b :: rest) then [b] else []) ++ sanitizeUTF8 rest

/-- Go `unicode.IsControl` (category Cc: C0 and C1 control code points). -/
def isControlRune (r : Nat) : Bool := r ≤ 0x1F ∨ (0x7F ≤ r ∧ r ≤ 0x9F)

/-- Per-rune body of the `normalizeAndClean` loop: drop NUL and control
characters other than tab/newline/carriage-return, map the Unicode
look-alike separators to ASCII, and re-encode everything else. -/
def normStep (r : Nat) : GoStr :=
  if r = 0 ∨ (isControlRune r ∧ r ≠ 9 ∧ r ≠ 10 ∧ r ≠ 13) then []
  else if r = 0x2215 then [47]
  else if r = 0x2044 then [47]
  else if r = 0xFF0E then [46]
  else if r = 0xFF0F then [47]
  else utf8Encode r

/-- `normalizeAndClean` from the source. -/
def normalizeAndClean (input : GoStr) : GoStr :=
  (runesOf (sanitizeUTF8 input)).foldr (fun r acc => normStep r ++ acc) []

/-- The spaced/padded traversal patterns checked by
`containsTraversalPattern` (Go `patterns` slice). -/
def spacedPatterns : List GoStr :=
  [goStr ". .", goStr ".\t.", goStr ". ./", goStr ".\t./", goStr " ../", goStr "\t../"]

/-- The encoded traversal patterns checked case-insensitively
(Go `encodedPatterns` slice). -/
def encodedPatterns : List GoStr :=
  [goStr "%2e%2e", goStr "&#46;&#46;", goStr "&#x2e;&#x2e;"]

/-- `containsTraversalPattern` from the source. -/
def containsTraversalPattern (path : GoStr) : Bool :=
  goContains path (goStr "..")
  || spacedPatterns.any (fun p => goContains path p)
  || encodedPatterns.any (fun p => goContains (toLowerAscii path) (toLowerAscii p))

/-! ### `path/filepath` on Unix

`filepath.Separator` is `/`, `filepath.ToSlash` is the identity, and
`filepath.Abs` resolves relative paths against the working directory. -/

/-- Go `filepath.IsAbs` on Unix: the path starts with `/`. -/
def isAbsPath (p : GoStr) : Bool :=
  match p with
  | 47 :: _ => true
  | _ => false

/-- Go `strings.Split(s, "/")` (always returns at least one segment). -/
def splitOnSlash : GoStr → List GoStr
  | [] => [[]]
  | c :: rest =>
    if c = 47 then [] :: splitOnSlash rest
    else
      match splitOnSlash rest with
      | seg :: segs => (c :: seg) :: segs
      | [] => [[c]]

/-- Segment processing of Go `filepath.Clean`: empty and `.` segments are
dropped, `..` pops a previous segment (or is dropped at the root, or kept at
the front of a relative path).  The accumulator holds the output segments in
reverse order. -/
def cleanSegs (rooted : Bool) : List GoStr → List GoStr → List GoStr
  | stack, [] => stack
  | stack, seg :: rest =>
    if seg = [] ∨ seg = [46] then cleanSegs rooted stack rest
    else if seg = [46, 46] then
      match stack with
      | [] => if rooted then cleanSegs rooted [] rest else cleanSegs rooted [seg] rest
      | top :: stk =>
        if top = [46, 46] then cleanSegs rooted (seg :: top :: stk) rest
        else cleanSegs rooted stk rest
    else cleanSegs rooted (seg :: stack) rest

/-- Join segments with `/`. -/
def joinSegs : List GoStr → GoStr
  | [] => []
  | [s] => s
  | s :: rest => s ++ 47 :: joinSegs rest

/-- The output segments of `filepath.Clean` for `p`, in order. -/
def cleanStack (p : GoStr) : List GoStr :=
  (cleanSegs (isAbsPath p) [] (splitOnSlash p)).reverse

/-- Go `filepath.Clean` on Unix (segment formulation of the Plan 9
`cleanname` algorithm). -/
def cleanPath (p : GoStr) : GoStr :=
  if p = [] then [46]
  else if isAbsPath p then
    if cleanStack p = [] then [47] else 47 :: joinSegs (cleanStack p)
  else
    if cleanStack p = [] then [46] else joinSegs (cleanStack p)

/-- Go `filepath.Join`: the elements from the first nonempty one onward are
joined with `/` and cleaned; all-empty input yields the empty string. -/
def goJoin : List GoStr → GoStr
  | [] => []
  | [] :: rest => goJoin rest
  | e :: rest => cleanPath (joinSegs (e :: rest))

/-- Go `filepath.Dir`: everything up to and including the final `/` (empty
when there is no `/`), cleaned. -/
def dirPath (p : GoStr) : GoStr :=
  cleanPath ((p.reverse.dropWhile (fun b => b ≠ 47)).reverse)

/-- Go `filepath.Abs` with an explicit working directory: absolute paths are
cleaned, relative ones are joined onto `cwd`.  (`os.Getwd` failures are not
modelled; `Abs` then never fails.) -/
def goAbs (cwd p : GoStr) : GoStr :=
  if isAbsPath p then cleanPath p else goJoin [cwd, p]

/-! ### `validatePath` -/

/-- The error taxonomy of `validatePath` (one constructor per
`fmt.Errorf` site that is reachable in the model). -/
inductive PathError
  | absNotAllowed
  | uncNotAllowed
  | invalidEncoding
  | traversalDetected
  | escapesBase
  deriving DecidableEq, Repr

/-- Final stage of `validatePath` (from the `filepath.Join` onward): join the
cleaned relative path onto the base directory, take absolute forms, and
require the result to be the base or to extend it past a separator. -/
def vpFinalize (cwd baseDir clean3 : GoStr) : Except PathError GoStr :=
  let fullPath := goJoin [baseDir, clean3]
  let absBasePath := goAbs cwd baseDir
  let absFullPath := goAbs cwd fullPath
  if absFullPath ≠ absBasePath ∧ ¬ (absBasePath ++ [47]).isPrefixOf absFullPath then
    .error .escapesBase
  else .ok absFullPath

/-- The body of `validatePath` after a successful decode: normalize, fix
separators, strip leading slashes, run the traversal check before and after
lexical cleanup, and finish with the containment check. -/
def validateDecoded (cwd baseDir decodedPath : GoStr) : Except PathError GoStr :=
  let normalizedPath := normalizeAndClean decodedPath
  let clean0 := goReplaceAll normalizedPath [92] [47]
  let clean1 := trimLeftSlash clean0
  if containsTraversalPattern clean1 then .error .traversalDetected
  else
    let clean2 := cleanPath clean1
    if containsTraversalPattern clean2 then .error .traversalDetected
    else
      let clean3 := if clean2 = [] ∨ clean2 = [46] then [] else clean2
      vpFinalize cwd baseDir clean3

/-- `validatePath` from the source, with the working directory explicit. -/
def validatePath (cwd baseDir reqPath : GoStr) : Except PathError GoStr :=
  if isAbsPath reqPath then .error .absNotAllowed
  else if reqPath.length ≥ 2 ∧ reqPath.get? 1 = some 58 then .error .absNotAllowed
  else if (goStr "\\\\").isPrefixOf reqPath ∨ (goStr "//").isPrefixOf reqPath then
    .error .uncNotAllowed
  else
    match decodeMultipleLayers reqPath with
    | .error _ => .error .invalidEncoding
    | .ok decodedPath => validateDecoded cwd baseDir decodedPath

/-! ### Template variable table and rendering

The `templateVars` Go map is modelled as an association list in source
order.  Go map iteration order is unspecified; the fallback replacement loop
below folds in source order (the placeholders and replacement values in the
table are such that no replacement introduces or destroys another
placeholder, so the iteration order does not affect the concrete renders
proved below). -/

/-- The `templateVars` map from the source (placeholder token, sample value).
Braces in the placeholder literals are written with `\x7b`/`\x7d` escapes. -/
def templateVars : List (GoStr × GoStr) :=
  [ (goStr "\x7b\x7b.rID\x7d\x7d", goStr "1234567890"),
    (goStr "\x7b\x7b.FirstName\x7d\x7d", goStr "John"),
    (goStr "\x7b\x7b.LastName\x7d\x7d", goStr "Doe"),
    (goStr "\x7b\x7b.Email\x7d\x7d", goStr "john.doe@example.com"),
    (goStr "\x7b\x7b.To\x7d\x7d", goStr "john.doe@example.com"),
    (goStr "\x7b\x7b.Phone\x7d\x7d", goStr "+1-555-123-4567"),
    (goStr "\x7b\x7b.ExtraIdentifier\x7d\x7d", goStr "EMP001"),
    (goStr "\x7b\x7b.Position\x7d\x7d", goStr "IT Manager"),
    (goStr "\x7b\x7b.Department\x7d\x7d", goStr "Information Technology"),
    (goStr "\x7b\x7b.City\x7d\x7d", goStr "New York"),
    (goStr "\x7b\x7b.Country\x7d\x7d", goStr "United States"),
    (goStr "\x7b\x7b.Misc\x7d\x7d", goStr "Additional Info"),
    (goStr "\x7b\x7b.Tracker\x7d\x7d",
      goStr "<img src=\"https://phishing.test/opened/unique-id\" alt=\"\" width=\"1\" height=\"1\" border=\"0\" style=\"height:1px !important;width:1px\" />"),
    (goStr "\x7b\x7b.TrackingURL\x7d\x7d", goStr "https://phishing.test/clicked/unique-id"),
    (goStr "\x7b\x7b.From\x7d\x7d", goStr "Security Team <security@phishing.test>"),
    (goStr "\x7b\x7b.BaseURL\x7d\x7d", goStr "https://phishing.test"),
    (goStr "\x7b\x7b.URL\x7d\x7d", goStr "https://phishing.test/phishing-link"),
    (goStr "\x7b\x7b.DenyURL\x7d\x7d", goStr "https://phishing.test/access-denied"),
    (goStr "\x7b\x7b.APIKey\x7d\x7d", goStr ""),
    (goStr "\x7b\x7b.CustomField1\x7d\x7d", goStr ""),
    (goStr "\x7b\x7b.CustomField2\x7d\x7d", goStr ""),
    (goStr "\x7b\x7b.CustomField3\x7d\x7d", goStr ""),
    (goStr "\x7b\x7b.CustomField4\x7d\x7d", goStr "") ]

/-- A value bound in the per-request template data: ordinary text (escaped on
injection) or `template.HTML` (injected verbatim). -/
inductive TVal
  | text (v : GoStr)
  | htmlv (v : GoStr)
  deriving DecidableEq, Repr

/-- Go `template.HTMLEscapeString` (the `html` escaper applied to ordinary
text values): NUL becomes U+FFFD, and the five HTML-special bytes become
entities. -/
def htmlEscapeString (s : GoStr) : GoStr :=
  s.foldr (fun b acc =>
    (match b with
     | 0 => [0xEF, 0xBF, 0xBD]
     | 34 => goStr "&#34;"
     | 38 => goStr "&amp;"
     | 39 => goStr "&#39;"
     | 60 => goStr "&lt;"
     | 62 => goStr "&gt;"
     | c => [c]) ++ acc) []

/-- The bindings derived from `templateVars` by `processTemplateContent`:
every entry shaped `\x7b\x7b.Name\x7d\x7d` contributes a binding of `Name`,
with `Tracker` bound as `template.HTML` and everything else as text. -/
def templateDataList : List (GoStr × TVal) :=
  templateVars.filterMap (fun pv =>
    if (goStr "\x7b\x7b.").isPrefixOf pv.1 ∧ (goStr "\x7d\x7d").isSuffixOf pv.1 then
      let varName := goTrimTrailing (goTrimLeading pv.1 (goStr "\x7b\x7b.")) (goStr "\x7d\x7d")
      some (varName, if varName = goStr "Tracker" then TVal.htmlv pv.2 else TVal.text pv.2)
    else none)

/-- The per-request template data map: the derived bindings with the
`BaseURL` binding overwritten by the computed value. -/
def templateDataLookup (baseURL : GoStr) (name : GoStr) : Option TVal :=
  if name = goStr "BaseURL" then some (.text baseURL)
  else templateDataList.lookup name

/-- Is `b` an ASCII letter, digit or underscore (the field-name characters
of a Go identifier, as accepted by the modelled template fragment)? -/
def isIdentByte (b : Nat) : Bool :=
  (48 ≤ b ∧ b ≤ 57) ∨ (65 ≤ b ∧ b ≤ 90) ∨ (97 ≤ b ∧ b ≤ 122) ∨ b = 95

/-- Whitespace skipped by Go's template lexer inside an action (space, tab,
carriage return, newline). -/
def isActionSpace (b : Nat) : Bool := b = 32 ∨ b = 9 ∨ b = 13 ∨ b = 10

/-- A parsed template token: literal bytes or a field reference. -/
inductive Tok
  | lit (b : Nat)
  | ref (name : GoStr)
  deriving DecidableEq, Repr

/-- Modelled from Go's `html/template` parser (`template.New(..).Parse`):
the fragment consists of literal text interleaved with field actions of the
shape open-brace open-brace, optional whitespace, dot NAME, optional
whitespace, close-brace close-brace (Go's lexer skips whitespace inside an
action), where NAME is a nonempty Go identifier.  Any other action form —
control structures, pipelines, comments, trim markers, a bare dot — is
outside the fragment and maps to `none`; on such documents the failure set
over-approximates Go's parser, so concrete theorems below only evaluate
documents on which this parser's verdict coincides with Go's (plain field
actions, or an action head that Go also rejects, such as an undefined
function name).  Fuel `≥ s.length` scans the whole input. -/
def parseTemplateF : Nat → GoStr → Option (List Tok)
  | 0, _ => some []
  | _ + 1, [] => some []
  | fuel + 1, 123 :: 123 :: rest =>
    match rest.dropWhile isActionSpace with
    | 46 :: rest2 =>
      let name := rest2.takeWhile isIdentByte
      if name = [] then none
      else
        match (rest2.drop name.length).dropWhile isActionSpace with
        | 125 :: 125 :: rest3 =>
          (parseTemplateF fuel rest3).map (fun ts => .ref name :: ts)
        | _ => none
    | _ => none
  | fuel + 1, c :: rest => (parseTemplateF fuel rest).map (fun ts => Tok.lit c :: ts)

/-- Parse a document in the modelled template fragment. -/
def parseTemplate (s : GoStr) : Option (List Tok) := parseTemplateF s.length s

/-- Execute a parsed template against the bound data, in an HTML text
context: text values are HTML-escaped, `template.HTML` values are injected
verbatim, and a missing field renders as the escaped `<no value>`
placeholder (Go's `missingkey` default for map data).  The `Option` mirrors
the Go `error` return of `Template.Execute`.  Go's `Execute` can genuinely
fail — its escape analysis rejects documents that end in a non-text context,
such as one ending inside a quoted attribute value — and this model does not
track HTML contexts, so it is faithful only on documents that stay in text
context; `processTemplateContentWith` below therefore models the renderer's
control flow for an arbitrary execute outcome, and this concrete model is
used only on text-context documents. -/
def execTemplate (toks : List Tok) (data : GoStr → Option TVal) : Option GoStr :=
  some (toks.foldr (fun t acc =>
    (match t with
     | .lit b => [b]
     | .ref name =>
       match data name with
       | some (.text v) => htmlEscapeString v
       | some (.htmlv v) => v
       | none => htmlEscapeString (goStr "<no value>")) ++ acc) [])

/-- The computed per-request `BaseURL`: `/templates/` plus the containing
directory of the request path, with `.` mapped to the empty directory and
trailing slashes trimmed. -/
def computeBaseURL (reqPath : GoStr) : GoStr :=
  let dp := dirPath reqPath
  let dp := if dp = [46] then [] else dp
  trimRightSlash (goStr "/templates/" ++ dp)

/-- The fallback substitution used when template parsing or execution fails:
replace the `BaseURL` placeholder with the computed value, then replace every
`templateVars` placeholder with its raw table value. -/
def fallbackReplace (content baseURL : GoStr) : GoStr :=
  let c := goReplaceAll content (goStr "\x7b\x7b.BaseURL\x7d\x7d") baseURL
  templateVars.foldl (fun acc pv => goReplaceAll acc pv.1 pv.2) c

/-! ### Asset path rewriting (`processAssetPaths`)

The two Go regular expressions over attribute values are modelled by a
direct scanner.  A match of `(src|href|action)=["']([^"']*?)["']` at a
position is: one of the attribute names, `=`, an opening quote (either
kind), a run of non-quote bytes (the value; the lazy quantifier and the
greedy `+` variant both stop at the first quote byte), and a closing quote
(either kind, not necessarily matching the opening one).  The three
attribute names start with distinct bytes, so at most one alternative
matches at a position, and matches are non-overlapping with scanning
resuming after each match, as with `ReplaceAllStringFunc`. -/

/-- Try to match `attr=["']value["']` at the start of `s`.  Returns the
opening quote, the value, the closing quote and the total number of bytes of
the match.  `minLen` is the minimum value length (0 for `*`, 1 for `+`). -/
def tryAttr (attr : GoStr) (minLen : Nat) (s : GoStr) : Option (Nat × GoStr × Nat × Nat) :=
  if (attr ++ [61]).isPrefixOf s then
    match s.drop (attr.length + 1) with
    | q1 :: rest2 =>
      if q1 = 34 ∨ q1 = 39 then
        let value := rest2.takeWhile (fun b => b ≠ 34 ∧ b ≠ 39)
        match rest2.drop value.length with
        | q2 :: _ =>
          if (q2 = 34 ∨ q2 = 39) ∧ minLen ≤ value.length then
            some (q1, value, q2, attr.length + 2 + value.length + 1)
          else none
        | [] => none
      else none
    | [] => none
  else none

/-- Try each attribute name at the current position. -/
def tryAttrs (attrs : List GoStr) (minLen : Nat) (s : GoStr) :
    Option (GoStr × Nat × GoStr × Nat × Nat) :=
  attrs.findSome? (fun a => (tryAttr a minLen s).map (fun m => (a, m)))

/-- Fuel-driven scanner implementing `ReplaceAllStringFunc` for the
attribute patterns: `f attr q1 value q2` produces the replacement of a whole
match.  `fuel ≥ s.length` scans the whole string (every step consumes at
least one byte, since a match is at least one byte long). -/
def scanAttrsF (attrs : List GoStr) (minLen : Nat)
    (f : GoStr → Nat → GoStr → Nat → GoStr) : Nat → GoStr → GoStr
  | 0, s => s
  | _ + 1, [] => []
  | fuel + 1, c :: rest =>
    match tryAttrs attrs minLen (c :: rest) with
    | some (attr, q1, value, q2, n) =>
      f attr q1 value q2 ++ scanAttrsF attrs minLen f fuel ((c :: rest).drop n)
    | none => c :: scanAttrsF attrs minLen f fuel rest

/-- Attribute-value replacement over a whole document. -/
def scanAttrs (attrs : List GoStr) (minLen : Nat)
    (f : GoStr → Nat → GoStr → Nat → GoStr) (s : GoStr) : GoStr :=
  scanAttrsF attrs minLen f s.length s

/-- Collapse every run of `/` bytes to a single `/` (the effect of
`regexp.MustCompile("//+").ReplaceAllString(s, "/")`; runs of length one are
left as they are by both). -/
def collapseSlashesF : Nat → GoStr → GoStr
  | 0, s => s
  | _ + 1, [] => []
  | fuel + 1, 47 :: rest => 47 :: collapseSlashesF fuel (rest.dropWhile (fun b => b = 47))
  | fuel + 1, c :: rest => c :: collapseSlashesF fuel rest

/-- Slash-run collapsing with sufficient fuel. -/
def collapseSlashes (s : GoStr) : GoStr := collapseSlashesF s.length s

/-- The first `ReplaceAllStringFunc` of `processAssetPaths`: for each
`src=`/`href=`/`action=` attribute value, leave the match alone when it
mentions `http://` or `https://`, otherwise collapse slash runs in the whole
match. -/
def collapseAttrSlashes (content : GoStr) : GoStr :=
  scanAttrs [goStr "src", goStr "href", goStr "action"] 0
    (fun attr q1 value q2 =>
      let whole := attr ++ 61 :: q1 :: value ++ [q2]
      if goContains whole (goStr "http://") || goContains whole (goStr "https://") then whole
      else collapseSlashes whole)
    content

/-- The per-match rewrite of the second `ReplaceAllStringFunc` (the
`srcRegex` over `src`/`href` only), translated branch for branch from the
source.  `fs` is the `os.Stat` existence probe. -/
def rewriteAttrPath (fs : GoStr → Bool) (templateDir baseDir : GoStr)
    (attr : GoStr) (q1 : Nat) (path : GoStr) (q2 : Nat) : GoStr :=
  let whole := attr ++ 61 :: q1 :: path ++ [q2]
  if (goStr "http://").isPrefixOf path ∨ (goStr "https://").isPrefixOf path
      ∨ (goStr "//").isPrefixOf path ∨ (goStr "data:").isPrefixOf path
      ∨ (goStr "#").isPrefixOf path then
    whole
  else if (goStr "/templates/").isPrefixOf path then
    let relativePath := goTrimLeading path (goStr "/templates/")
    let fullPath := goJoin [baseDir, relativePath]
    if fs fullPath then whole
    else
      let templatePre := templateDir ++ [47]
      if templatePre.isPrefixOf relativePath then
        let assetPath0 := goTrimLeading relativePath templatePre
        let assetPath :=
          if (goStr "assets/").isPrefixOf assetPath0 then
            goTrimLeading assetPath0 (goStr "assets/")
          else assetPath0
        let globalAssetsPath := goJoin [baseDir, goStr "assets", assetPath]
        if fs globalAssetsPath then
          let newPath := cleanPath (goJoin [goStr "/templates/assets", assetPath])
          attr ++ 61 :: 34 :: newPath ++ [34]
        else whole
      else whole
  else
    let localPath := goJoin [baseDir, templateDir, path]
    if fs localPath then
      let newPath0 := cleanPath (goJoin [goStr "/templates", templateDir, path])
      let newPath :=
        if (goStr "/templates").isPrefixOf newPath0 then newPath0
        else goStr "/templates/" ++ goTrimLeading newPath0 (goStr "/")
      attr ++ 61 :: 34 :: newPath ++ [34]
    else
      let globalAssetsPath := goJoin [baseDir, goStr "assets", path]
      if fs globalAssetsPath then
        let newPath := cleanPath (goJoin [goStr "/templates/assets", path])
        attr ++ 61 :: 34 :: newPath ++ [34]
      else
        let newPath0 := cleanPath (goJoin [goStr "/templates", templateDir, path])
        let newPath :=
          if (goStr "/templates").isPrefixOf newPath0 then newPath0
          else goStr "/templates/" ++ goTrimLeading newPath0 (goStr "/")
        attr ++ 61 :: 34 :: newPath ++ [34]

/-- `processAssetPaths` from the source: the two literal `src="//` /
`href="//` replacements, the attribute-scoped slash collapsing, then the
`src`/`href` fallback rewriting.  (`filepath.ToSlash` is the identity on
Unix.) -/
def processAssetPaths (fs : GoStr → Bool) (content reqPath baseDir : GoStr) : GoStr :=
  let c1 := goReplaceAll content (goStr "src=\"//") (goStr "src=\"/")
  let c2 := goReplaceAll c1 (goStr "href=\"//") (goStr "href=\"/")
  let c3 := collapseAttrSlashes c2
  let templateDir := dirPath reqPath
  scanAttrs [goStr "src", goStr "href"] 1 (rewriteAttrPath fs templateDir baseDir) c3

/-- The control flow of `processTemplateContent`, parametric in the template
engine: compute the per-request `BaseURL`, parse and execute the document,
fall back to literal placeholder substitution when either engine step
reports an error, then rewrite asset paths.  The engine is a parameter
because Go's `html/template` cannot be modelled in full: theorems about the
parse-error and execute-error branches hold for every engine outcome, while
the concrete fragment engine below is substituted only to evaluate
documents on which it is faithful to Go. -/
def processTemplateContentWith
    (parse : GoStr → Option (List Tok))
    (exec : List Tok → (GoStr → Option TVal) → Option GoStr)
    (fs : GoStr → Bool) (content reqPath baseDir : GoStr) : GoStr :=
  let baseURL := computeBaseURL reqPath
  match parse content with
  | none => processAssetPaths fs (fallbackReplace content baseURL) reqPath baseDir
  | some toks =>
    match exec toks (templateDataLookup baseURL) with
    | none => processAssetPaths fs (fallbackReplace content baseURL) reqPath baseDir
    | some rendered => processAssetPaths fs rendered reqPath baseDir

/-- `processTemplateContent` from the source: the renderer control flow
instantiated with the modelled fragment engine. -/
def processTemplateContent (fs : GoStr → Bool) (content reqPath baseDir : GoStr) : GoStr :=
  processTemplateContentWith parseTemplate execTemplate fs content reqPath baseDir

/-! ### Auxiliary objects used by the theorem statements -/

/-- Is a bound value plain text (escaped on injection)? -/
def isTextVal : TVal → Bool
  | .text _ => true
  | .htmlv _ => false

/-- An empty filesystem: no probe succeeds. -/
def fsNone : GoStr → Bool := fun _ => false

/-- A filesystem containing only the global asset `/base/assets/logo.png`. -/
def fsGlobalLogo : GoStr → Bool := fun p => p == goStr "/base/assets/logo.png"

/-- A filesystem containing `logo.png` both in the template directory
`/base/tpl` and in the global asset pool `/base/assets`. -/
def fsBothLogo : GoStr → Bool :=
  fun p => p == goStr "/base/tpl/logo.png" || p == goStr "/base/assets/logo.png"

/-- The template-directory public form an asset reference is rewritten to
(the `newPath` computed from `/templates`, the template directory and the
reference, including the prefix repair). -/
def templatePublicForm (templateDir path : GoStr) : GoStr :=
  let p := cleanPath (goJoin [goStr "/templates", templateDir, path])
  if (goStr "/templates").isPrefixOf p then p
  else goStr "/templates/" ++ goTrimLeading p (goStr "/")

/-- The global-pool public form an asset reference is rewritten to. -/
def globalPublicForm (path : GoStr) : GoStr :=
  cleanPath (goJoin [goStr "/templates/assets", path])

/-! ### Structural lemmas about `cleanPath`

Outputs of `filepath.Clean` are nonempty, end with a separator only when they
are exactly `/`, and stay relative when the input is relative. -/

/-- `strings.Split` never returns an empty list. -/
lemma splitOnSlash_ne_nil (p : GoStr) : splitOnSlash p ≠ [] := by
  cases p with
  | nil => simp [splitOnSlash]
  | cons c rest =>
    unfold splitOnSlash
    split
    · simp
    · split <;> simp

/-- Segments produced by splitting on `/` contain no `/`. -/
lemma splitOnSlash_no_slash (p : GoStr) : ∀ s ∈ splitOnSlash p, (47 : Nat) ∉ s := by
  induction p with
  | nil => intro s hs; simp [splitOnSlash] at hs; simp [hs]
  | cons c rest ih =>
    intro s hs
    unfold splitOnSlash at hs
    by_cases hc : c = 47
    · simp [hc] at hs
      rcases hs with h | h
      · simp [h]
      · exact ih s h
    · simp [hc] at hs
      rcases hrec : splitOnSlash rest with _ | ⟨seg, segs⟩
      · exact absurd hrec (splitOnSlash_ne_nil rest)
      · rw [hrec] at hs
        simp at hs
        rcases hs with h | h
        · subst h
          intro hmem
          rcases List.mem_cons.mp hmem with h47 | h47
          · exact hc h47.symm
          · exact ih seg (by rw [hrec]; exact List.mem_cons_self _ _) h47
        · exact ih s (by rw [hrec]; exact List.mem_cons_of_mem _ h)

/-- Invariant of the clean stack: segments are nonempty and slash-free. -/
def SegOk (s : GoStr) : Prop := s ≠ [] ∧ (47 : Nat) ∉ s

/-- The clean stack only ever holds nonempty, slash-free segments. -/
lemma cleanSegs_inv (rooted : Bool) :
    ∀ segs stack, (∀ s ∈ stack, SegOk s) → (∀ s ∈ segs, (47 : Nat) ∉ s) →
      ∀ s ∈ cleanSegs rooted stack segs, SegOk s := by
  intro segs
  induction segs with
  | nil => intro stack hst _ s hs; simp only [cleanSegs] at hs; exact hst s hs
  | cons seg rest ih =>
    intro stack hst hsg s hs
    have hseg : (47 : Nat) ∉ seg := hsg seg (List.mem_cons_self _ _)
    have hrest : ∀ x ∈ rest, (47 : Nat) ∉ x := fun x h => hsg x (List.mem_cons_of_mem _ h)
    simp only [cleanSegs] at hs
    by_cases h1 : seg = [] ∨ seg = [46]
    · rw [if_pos h1] at hs
      exact ih stack hst hrest s hs
    · rw [if_neg h1] at hs
      by_cases h2 : seg = [46, 46]
      · rw [if_pos h2] at hs
        split at hs
        · split at hs
          · exact ih [] (by simp) hrest s hs
          · refine ih [seg] ?_ hrest s hs
            intro x hx
            simp at hx
            subst hx
            subst h2
            exact ⟨by simp, by decide⟩
        · next top stk =>
          split at hs
          · refine ih (seg :: top :: stk) ?_ hrest s hs
            intro x hx
            rcases List.mem_cons.mp hx with h | h
            · subst h; subst h2; exact ⟨by simp, by decide⟩
            · exact hst x h
          · refine ih stk ?_ hrest s hs
            intro x hx
            exact hst x (List.mem_cons_of_mem _ hx)
      · rw [if_neg h2] at hs
        refine ih (seg :: stack) ?_ hrest s hs
        intro x hx
        rcases List.mem_cons.mp hx with h | h
        · subst h
          exact ⟨fun hnil => h1 (Or.inl hnil), hseg⟩
        · exact hst x h

/-- Joining a nonempty list of good segments is nonempty. -/
lemma joinSegs_ne_nil (l : List GoStr) (hl : l ≠ []) (hinv : ∀ s ∈ l, SegOk s) :
    joinSegs l ≠ [] := by
  match l with
  | [s] =>
    have := (hinv s (List.mem_cons_self _ _)).1
    simpa [joinSegs] using this
  | s :: s2 :: rest =>
    simp [joinSegs]

/-- Joining good segments never ends with a separator. -/
lemma joinSegs_getLast (l : List GoStr) (hl : l ≠ []) (hinv : ∀ s ∈ l, SegOk s) :
    (joinSegs l).getLast? ≠ some 47 := by
  match l with
  | [s] =>
    have hne := (hinv s (List.mem_cons_self _ _)).1
    have hns := (hinv s (List.mem_cons_self _ _)).2
    intro hcon
    simp only [joinSegs] at hcon
    rcases List.mem_getLast?_eq_getLast (by rw [hcon]; exact rfl) with ⟨h, heq⟩
    exact hns (by rw [heq]; exact List.getLast_mem h)
  | s :: s2 :: rest =>
    have ihinv : ∀ x ∈ s2 :: rest, SegOk x := fun x hx => hinv x (List.mem_cons_of_mem _ hx)
    have ihne : joinSegs (s2 :: rest) ≠ [] := joinSegs_ne_nil _ (by simp) ihinv
    have ih : (joinSegs (s2 :: rest)).getLast? ≠ some 47 := joinSegs_getLast _ (by simp) ihinv
    show (joinSegs (s :: s2 :: rest)).getLast? ≠ some 47
    have hstep : joinSegs (s :: s2 :: rest) = s ++ 47 :: joinSegs (s2 :: rest) := by
      simp [joinSegs]
    rw [hstep, List.getLast?_append_of_ne_nil _ (by simp)]
    rcases hj : joinSegs (s2 :: rest) with _ | ⟨b, lrest⟩
    · exact absurd hj ihne
    · rw [List.getLast?_cons_cons]
      rw [hj] at ih
      exact ih

/-- Joining good segments never starts with a separator. -/
lemma joinSegs_not_rooted (l : List GoStr) (hl : l ≠ []) (hinv : ∀ s ∈ l, SegOk s) :
    isAbsPath (joinSegs l) = false := by
  match l with
  | s :: rest =>
    have hne := (hinv s (List.mem_cons_self _ _)).1
    have hns := (hinv s (List.mem_cons_self _ _)).2
    match rest with
    | [] =>
      show isAbsPath (joinSegs [s]) = false
      simp only [joinSegs]
      match s, hne with
      | c :: s', _ =>
        have hc : c ≠ 47 := fun h => hns (by rw [h]; exact List.mem_cons_self _ _)
        simp [isAbsPath, hc]
    | s2 :: rest2 =>
      have hstep : joinSegs (s :: s2 :: rest2) = s ++ 47 :: joinSegs (s2 :: rest2) := by
        simp [joinSegs]
      rw [hstep]
      match s, hne with
      | c :: s', _ =>
        have hc : c ≠ 47 := fun h => hns (by rw [h]; exact List.mem_cons_self _ _)
        simp [isAbsPath, hc]

/-- The clean stack of any path satisfies the invariant. -/
lemma cleanStack_inv (p : GoStr) : ∀ s ∈ cleanStack p, SegOk s := by
  intro s hs
  rw [cleanStack, List.mem_reverse] at hs
  exact cleanSegs_inv _ _ [] (by simp) (splitOnSlash_no_slash p) s hs

/-- `filepath.Clean` never returns the empty string. -/
lemma cleanPath_ne_nil (p : GoStr) : cleanPath p ≠ [] := by
  unfold cleanPath
  split
  · simp
  · split
    · split
      · simp
      · simp
    · split
      · simp
      · next hst => exact joinSegs_ne_nil _ hst (cleanStack_inv p)

/-- `filepath.Clean` ends with a separator only when the result is `/`. -/
lemma cleanPath_getLast (p : GoStr) :
    cleanPath p = [47] ∨ (cleanPath p).getLast? ≠ some 47 := by
  unfold cleanPath
  split
  · right; simp
  · split
    · split
      · left; rfl
      · next hst =>
        right
        have hinv := cleanStack_inv p
        have hne := joinSegs_ne_nil _ hst hinv
        rcases hj : joinSegs (cleanStack p) with _ | ⟨b, l⟩
        · exact absurd hj hne
        · rw [List.getLast?_cons_cons]
          have hlast := joinSegs_getLast _ hst hinv
          rw [hj] at hlast
          exact hlast
    · split
      · right; simp
      · next hst => exact Or.inr (joinSegs_getLast _ hst (cleanStack_inv p))

/-- `filepath.Clean` of a relative path is relative. -/
lemma cleanPath_not_rooted (p : GoStr) (h : isAbsPath p = false) :
    isAbsPath (cleanPath p) = false := by
  unfold cleanPath
  split
  · rfl
  · rw [h]
    simp only [Bool.false_eq_true, if_false]
    split
    · rfl
    · next hst => exact joinSegs_not_rooted _ hst (cleanStack_inv p)

/-- A relative path is never the single separator. -/
lemma not_rooted_ne_slash (x : GoStr) (h : isAbsPath x = false) : x ≠ [47] := by
  intro hx; subst hx; simp [isAbsPath] at h

/-- Stripping leading slashes produces a relative path. -/
lemma trimLeftSlash_not_rooted (s : GoStr) : isAbsPath (trimLeftSlash s) = false := by
  induction s with
  | nil => rfl
  | cons c rest ih =>
    unfold trimLeftSlash at *
    by_cases hc : c = 47
    · simpa [List.dropWhile, hc] using ih
    · simp [List.dropWhile, hc, isAbsPath]

/-- `filepath.Join` returns the empty string or a cleaned path. -/
lemma goJoin_shape (l : List GoStr) : goJoin l = [] ∨ ∃ q, goJoin l = cleanPath q := by
  induction l with
  | nil => left; rfl
  | cons e rest ih =>
    match e with
    | [] =>
      rw [show goJoin ([] :: rest) = goJoin rest from rfl]
      exact ih
    | c :: e' =>
      right
      exact ⟨joinSegs ((c :: e') :: rest), rfl⟩

/-- `filepath.Abs` returns the empty string or a cleaned path. -/
lemma goAbs_shape (cwd p : GoStr) : goAbs cwd p = [] ∨ ∃ q, goAbs cwd p = cleanPath q := by
  unfold goAbs
  split
  · right; exact ⟨p, rfl⟩
  · exact goJoin_shape [cwd, p]

/-- `filepath.Abs` is empty only when both inputs are empty. -/
lemma goAbs_nil (cwd b : GoStr) (h : goAbs cwd b = []) : cwd = [] ∧ b = [] := by
  unfold goAbs at h
  split at h
  · exact absurd h (cleanPath_ne_nil b)
  · match hc : cwd, hb : b with
    | [], [] => exact ⟨rfl, rfl⟩
    | [], c :: b' =>
      rw [show goJoin [[], c :: b'] = cleanPath (joinSegs [c :: b']) from rfl] at h
      exact absurd h (cleanPath_ne_nil _)
    | c :: cwd', b0 =>
      rw [show goJoin [c :: cwd', b0] = cleanPath (joinSegs [c :: cwd', b0]) from rfl] at h
      exact absurd h (cleanPath_ne_nil _)

/-- In the degenerate empty environment, absolutizing the joined relative
path never yields the bare separator. -/
lemma goAbs_nilEnv_ne_slash (clean3 : GoStr) (hc3 : isAbsPath clean3 = false) :
    goAbs [] (goJoin [[], clean3]) ≠ [47] := by
  match clean3, hc3 with
  | [], _ =>
    rw [show goJoin [([] : GoStr), []] = [] from rfl]
    rw [show goAbs [] [] = [] from rfl]
    simp
  | c :: t, hc3 =>
    have hfull : goJoin [[], c :: t] = cleanPath (joinSegs [c :: t]) := rfl
    have hjs : joinSegs [c :: t] = c :: t := rfl
    rw [hfull, hjs]
    have hnr : isAbsPath (cleanPath (c :: t)) = false := cleanPath_not_rooted _ hc3
    have hnn : cleanPath (c :: t) ≠ [] := cleanPath_ne_nil _
    unfold goAbs
    rw [hnr]
    simp only [Bool.false_eq_true, if_false]
    match hcp : cleanPath (c :: t), hnn with
    | d :: t', _ =>
      have hg : goJoin [[], d :: t'] = cleanPath (joinSegs [d :: t']) := rfl
      rw [hg, show joinSegs [d :: t'] = d :: t' from rfl]
      have hd : isAbsPath (d :: t') = false := by rw [← hcp]; exact hnr
      exact not_rooted_ne_slash _ (cleanPath_not_rooted _ hd)

/-- Containment property of the final containment check. -/
lemma vpFinalize_ok (cwd baseDir clean3 p : GoStr) (hc3 : isAbsPath clean3 = false)
    (h : vpFinalize cwd baseDir clean3 = .ok p) :
    p = goAbs cwd baseDir ∨
      ((goAbs cwd baseDir ++ [47]).isPrefixOf p = true ∧ p ≠ goAbs cwd baseDir ++ [47]) := by
  unfold vpFinalize at h
  simp only [] at h
  split at h
  · exact absurd h (by simp)
  · next hguard =>
    have hp : p = goAbs cwd (goJoin [baseDir, clean3]) := (Except.ok.inj h).symm
    rw [not_and_or] at hguard
    rcases hguard with hguard | hguard
    · left
      rw [hp]
      simpa using hguard
    · right
      have hpre : (goAbs cwd baseDir ++ [47]).isPrefixOf p = true := by
        rw [hp]
        simpa using hguard
      refine ⟨hpre, ?_⟩
      intro hbad
      have hlast : p.getLast? = some 47 := by
        rw [hbad, List.getLast?_append_of_ne_nil _ (by simp)]
        rfl
      rcases goAbs_shape cwd (goJoin [baseDir, clean3]) with hsh | ⟨q, hsh⟩
      · rw [hp, hsh] at hbad
        have := congrArg List.length hbad
        simp at this
      · rcases cleanPath_getLast q with h47 | h47
        · have hp47 : p = [47] := by rw [hp, hsh, h47]
          have hbase : goAbs cwd baseDir = [] := by
            rw [hp47] at hbad
            have := congrArg List.length hbad
            simp at this
            exact this
          rcases goAbs_nil _ _ hbase with ⟨hcwd, hb⟩
          subst hcwd; subst hb
          exact goAbs_nilEnv_ne_slash clean3 hc3 (by rw [← hp47, hp])
        · rw [hp, hsh] at hlast
          exact h47 hlast

/-- Containment property of the post-decode pipeline. -/
lemma validateDecoded_ok (cwd baseDir decodedPath p : GoStr)
    (h : validateDecoded cwd baseDir decodedPath = .ok p) :
    p = goAbs cwd baseDir ∨
      ((goAbs cwd baseDir ++ [47]).isPrefixOf p = true ∧ p ≠ goAbs cwd baseDir ++ [47]) := by
  unfold validateDecoded at h
  simp only [] at h
  split at h
  · exact absurd h (by simp)
  · split at h
    · exact absurd h (by simp)
    · refine vpFinalize_ok _ _ _ _ ?_ h
      split
      · rfl
      · exact cleanPath_not_rooted _ (trimLeftSlash_not_rooted _)

/-- The final containment check never reports a decode failure. -/
lemma vpFinalize_not_invalidEncoding (cwd b c3 : GoStr) :
    vpFinalize cwd b c3 ≠ .error .invalidEncoding := by
  unfold vpFinalize
  simp only []
  split <;> simp

/-- The post-decode pipeline never reports a decode failure. -/
lemma validateDecoded_not_invalidEncoding (cwd b d : GoStr) :
    validateDecoded cwd b d ≠ .error .invalidEncoding := by
  unfold validateDecoded
  simp only []
  split
  · simp
  · split
    · simp
    · exact vpFinalize_not_invalidEncoding _ _ _

/-- UTF-8 encoding of a nonzero rune contains no zero byte. -/
lemma utf8Encode_no_null (r : Nat) (hr : r ≠ 0) : ∀ b ∈ utf8Encode r, b ≠ 0 := by
  intro b hb
  unfold utf8Encode at hb
  repeat' split at hb
  all_goals simp at hb
  all_goals omega

/-- One normalization step never emits a zero byte. -/
lemma normStep_no_null (r : Nat) : ∀ b ∈ normStep r, b ≠ 0 := by
  intro b hb
  unfold normStep at hb
  split at hb
  · simp at hb
  · next hcond =>
    have hr : r ≠ 0 := fun h => hcond (Or.inl h)
    split at hb
    · simp at hb; omega
    · split at hb
      · simp at hb; omega
      · split at hb
        · simp at hb; omega
        · split at hb
          · simp at hb; omega
          · exact utf8Encode_no_null r hr b hb

/-! ### C1: containment of every successful resolution -/

/-- C1: for every working directory, root directory and request path, a
successful `validatePath` result is the absolute form of the root, or has
the absolute root followed by the path separator as a strict prefix; no
successful result escapes the root. -/
theorem validatePath_contained (cwd baseDir reqPath p : GoStr)
    (h : validatePath cwd baseDir reqPath = .ok p) :
    p = goAbs cwd baseDir ∨
      ((goAbs cwd baseDir ++ [47]).isPrefixOf p = true ∧ p ≠ goAbs cwd baseDir ++ [47]) := by
  unfold validatePath at h
  split at h
  · exact absurd h (by simp)
  · split at h
    · exact absurd h (by simp)
    · split at h
      · exact absurd h (by simp)
      · exact validateDecoded_ok _ _ _ _ h

/-- Witness for C1: the successful resolution of `sub/dir/file.html` under
root `/base` satisfies the containment property. -/
theorem validatePath_contained_witness :
    goStr "/base/sub/dir/file.html" = goAbs (goStr "/") (goStr "/base") ∨
      ((goAbs (goStr "/") (goStr "/base") ++ [47]).isPrefixOf
          (goStr "/base/sub/dir/file.html") = true ∧
        goStr "/base/sub/dir/file.html" ≠ goAbs (goStr "/") (goStr "/base") ++ [47]) :=
  validatePath_contained (goStr "/") (goStr "/base") (goStr "sub/dir/file.html") _ rfl

/-! ### C10: the decode stage cannot fail -/

/-- C10: `decodeMultipleLayers` returns a nil error for every input, a
failing `QueryUnescape` leaves the string unchanged for the round, and the
`invalid encoding in path` branch of `validatePath` is unreachable. -/
theorem decode_never_fails :
    (∀ input : GoStr, decodeMultipleLayers input = .ok (decodeIter 5 input)) ∧
    (∀ s : GoStr, queryUnescape s = none → decodeRound s = htmlUnescape s) ∧
    (∀ cwd baseDir reqPath : GoStr,
      validatePath cwd baseDir reqPath ≠ .error .invalidEncoding) := by
  refine ⟨fun _ => rfl, fun s h => by simp [decodeRound, h], fun cwd b r => ?_⟩
  unfold validatePath
  split
  · simp
  · split
    · simp
    · split
      · simp
      · exact validateDecoded_not_invalidEncoding _ _ _

/-- Witness for C10: the malformed escape `%zz` fails `QueryUnescape` and
its decode round degrades to HTML unescaping of the unchanged string. -/
theorem decode_never_fails_witness :
    decodeRound (goStr "%zz") = htmlUnescape (goStr "%zz") :=
  decode_never_fails.2.1 (goStr "%zz") rfl

/-! ### C8: null bytes are stripped, not rejected -/

/-- C8 counterexample: the decoded form of `a%00b` contains a null byte, yet
`validatePath` accepts the path (the null byte is stripped), refuting the
claim that any null byte in the decoded string is rejected. -/
theorem validatePath_null_not_rejected :
    decodeMultipleLayers (goStr "a%00b") = .ok [97, 0, 98] ∧
    (0 : Nat) ∈ [97, 0, 98] ∧
    validatePath (goStr "/") (goStr "/base") (goStr "a%00b") = .ok (goStr "/base/ab") :=
  ⟨rfl, by decide, rfl⟩

/-- C8 amended: a null byte anywhere in the decoded string is removed by
`normalizeAndClean` (the sanitized path never contains one) rather than
causing rejection; resolution can then succeed on the stripped path. -/
theorem normalizeAndClean_strips_null :
    (∀ s : GoStr, (0 : Nat) ∉ normalizeAndClean s) ∧
    validatePath (goStr "/") (goStr "/base") (goStr "a%00b") = .ok (goStr "/base/ab") := by
  refine ⟨fun s => ?_, rfl⟩
  unfold normalizeAndClean
  generalize runesOf (sanitizeUTF8 s) = rs
  induction rs with
  | nil => simp
  | cons r rest ih =>
    simp only [List.foldr_cons]
    intro hmem
    rcases List.mem_append.mp hmem with h | h
    · exact normStep_no_null r 0 h rfl
    · exact ih h

/-! ### C3: asset rewriting is not idempotent -/

/-- The document exhibiting non-idempotence: a bare relative reference whose
name begins with the literal `assets/` segment. -/
def assetDoc : GoStr := goStr "src=\"assets/logo.png\""

/-- C3 counterexample: with a global asset `/base/assets/logo.png` on disk,
the first rewrite of `assetDoc` yields the template public path, and a second
application redirects it to the global pool: applying `processAssetPaths` to
its own output changes the text again, refuting idempotence. -/
theorem processAssetPaths_not_idempotent :
    processAssetPaths fsGlobalLogo
        (processAssetPaths fsGlobalLogo assetDoc (goStr "dir/email.html") (goStr "/base"))
        (goStr "dir/email.html") (goStr "/base")
      ≠ processAssetPaths fsGlobalLogo assetDoc (goStr "dir/email.html") (goStr "/base") := by
  have h1 : processAssetPaths fsGlobalLogo assetDoc (goStr "dir/email.html") (goStr "/base")
      = goStr "src=\"/templates/dir/assets/logo.png\"" := rfl
  have h2 : processAssetPaths fsGlobalLogo (goStr "src=\"/templates/dir/assets/logo.png\"")
      (goStr "dir/email.html") (goStr "/base")
      = goStr "src=\"/templates/assets/logo.png\"" := rfl
  rw [h1, h2]
  decide

/-- C3 amended: asset rewriting is not idempotent in general — a reference
rewritten to the template's public path can be redirected to the global pool
by a second pass — but on the counterexample document the output is stable
from the second application onward, and rewriting is idempotent on the
fallback-priority example whose reference resolves in the template
directory. -/
theorem processAssetPaths_stabilizes :
    (processAssetPaths fsGlobalLogo
        (processAssetPaths fsGlobalLogo
          (processAssetPaths fsGlobalLogo assetDoc (goStr "dir/email.html") (goStr "/base"))
          (goStr "dir/email.html") (goStr "/base"))
        (goStr "dir/email.html") (goStr "/base")
      = processAssetPaths fsGlobalLogo
          (processAssetPaths fsGlobalLogo assetDoc (goStr "dir/email.html") (goStr "/base"))
          (goStr "dir/email.html") (goStr "/base")) ∧
    (processAssetPaths fsBothLogo
        (processAssetPaths fsBothLogo (goStr "src=\"logo.png\"") (goStr "tpl/email.html")
          (goStr "/base"))
        (goStr "tpl/email.html") (goStr "/base")
      = processAssetPaths fsBothLogo (goStr "src=\"logo.png\"") (goStr "tpl/email.html")
          (goStr "/base")) := by
  have h1 : processAssetPaths fsGlobalLogo assetDoc (goStr "dir/email.html") (goStr "/base")
      = goStr "src=\"/templates/dir/assets/logo.png\"" := rfl
  have h2 : processAssetPaths fsGlobalLogo (goStr "src=\"/templates/dir/assets/logo.png\"")
      (goStr "dir/email.html") (goStr "/base")
      = goStr "src=\"/templates/assets/logo.png\"" := rfl
  have h3 : processAssetPaths fsGlobalLogo (goStr "src=\"/templates/assets/logo.png\"")
      (goStr "dir/email.html") (goStr "/base")
      = goStr "src=\"/templates/assets/logo.png\"" := rfl
  have h4 : processAssetPaths fsBothLogo (goStr "src=\"logo.png\"") (goStr "tpl/email.html")
      (goStr "/base") = goStr "src=\"/templates/tpl/logo.png\"" := rfl
  have h5 : processAssetPaths fsBothLogo (goStr "src=\"/templates/tpl/logo.png\"")
      (goStr "tpl/email.html") (goStr "/base") = goStr "src=\"/templates/tpl/logo.png\"" := rfl
  refine ⟨?_, ?_⟩
  · rw [h1, h2, h3]
  · rw [h4, h5]

/-! ### C4: two-tier fallback priority for bare relative references -/

/-- C4: for a bare relative reference (no scheme, no scheme-relative `//`,
no `data:`, no fragment, no `/templates/` mount prefix), the rewrite probes
the template directory first and rewrites to the template public path when
the file exists there (a template-local file wins over a same-named global
asset), otherwise probes the global pool and rewrites to the global public
path when found, and when found in neither still rewrites to the template
public path form; the three concrete whole-document scenarios confirm the
same priority end to end. -/
theorem asset_fallback_priority :
    (∀ (fs : GoStr → Bool) (templateDir baseDir attr pth : GoStr) (q1 q2 : Nat),
      ((goStr "http://").isPrefixOf pth || (goStr "https://").isPrefixOf pth
        || (goStr "//").isPrefixOf pth || (goStr "data:").isPrefixOf pth
        || (goStr "#").isPrefixOf pth) = false →
      (goStr "/templates/").isPrefixOf pth = false →
      (fs (goJoin [baseDir, templateDir, pth]) = true →
        rewriteAttrPath fs templateDir baseDir attr q1 pth q2
          = attr ++ 61 :: 34 :: templatePublicForm templateDir pth ++ [34]) ∧
      (fs (goJoin [baseDir, templateDir, pth]) = false →
        fs (goJoin [baseDir, goStr "assets", pth]) = true →
        rewriteAttrPath fs templateDir baseDir attr q1 pth q2
          = attr ++ 61 :: 34 :: globalPublicForm pth ++ [34]) ∧
      (fs (goJoin [baseDir, templateDir, pth]) = false →
        fs (goJoin [baseDir, goStr "assets", pth]) = false →
        rewriteAttrPath fs templateDir baseDir attr q1 pth q2
          = attr ++ 61 :: 34 :: templatePublicForm templateDir pth ++ [34])) ∧
    processAssetPaths fsBothLogo (goStr "src=\"logo.png\"") (goStr "tpl/email.html")
        (goStr "/base") = goStr "src=\"/templates/tpl/logo.png\"" ∧
    processAssetPaths fsGlobalLogo (goStr "src=\"logo.png\"") (goStr "tpl/email.html")
        (goStr "/base") = goStr "src=\"/templates/assets/logo.png\"" ∧
    processAssetPaths fsNone (goStr "src=\"logo.png\"") (goStr "tpl/email.html")
        (goStr "/base") = goStr "src=\"/templates/tpl/logo.png\"" := by
  refine ⟨?_, rfl, rfl, rfl⟩
  intro fs templateDir baseDir attr pth q1 q2 hskip hmount
  have hs := hskip
  simp only [Bool.or_eq_false_iff] at hs
  obtain ⟨⟨⟨⟨h1, h2⟩, h3⟩, h4⟩, h5⟩ := hs
  refine ⟨fun hloc => ?_, fun hloc hglob => ?_, fun hloc hglob => ?_⟩ <;>
    · unfold rewriteAttrPath
      simp only [h1, h2, h3, h4, h5, hmount, hloc, Bool.false_eq_true, if_false, false_or,
        or_self, if_true]
      first
        | rfl
        | (simp only [hglob, Bool.false_eq_true, if_false, if_true]; rfl)

/-- Witness for C4: with both a template-local and a global `logo.png` on
disk, the bare reference rewrites to the template-local public path. -/
theorem asset_fallback_priority_witness :
    rewriteAttrPath fsBothLogo (goStr "tpl") (goStr "/base") (goStr "src") 34
        (goStr "logo.png") 34
      = goStr "src" ++ 61 :: 34 :: templatePublicForm (goStr "tpl") (goStr "logo.png") ++ [34] :=
  (asset_fallback_priority.1 fsBothLogo (goStr "tpl") (goStr "/base") (goStr "src")
      (goStr "logo.png") 34 34 (by decide) (by decide)).1 (by decide)

/-! ### C5: totality and fallback of the content renderer -/

/-- C5 counterexample: on a document that fails template parsing, the
fallback substitutes the raw `From` table value with its `<`/`>` unescaped,
while the normal templating path escapes the same value — so the fallback
does not escape values consistently with the normal path. -/
theorem render_fallback_not_escaped :
    processTemplateContent fsNone (goStr "\x7b\x7bbad \x7b\x7b.From\x7d\x7d")
        (goStr "email.html") (goStr "/base")
      = goStr "\x7b\x7bbad Security Team <security@phishing.test>" ∧
    processTemplateContent fsNone (goStr "\x7b\x7b.From\x7d\x7d")
        (goStr "email.html") (goStr "/base")
      = goStr "Security Team &lt;security@phishing.test&gt;" :=
  ⟨rfl, rfl⟩

/-- C5 amended: `processTemplateContent` always produces output, and its
control flow guarantees the fallback unconditionally: for every possible
outcome of the template engine's parse and execute steps (Go's `Execute` can
genuinely fail at escape time, e.g. on a document ending inside a quoted
attribute), a reported parse error or execute error routes the render to
literal substring replacement of each known placeholder with its raw
(unescaped) table value, followed by the usual asset rewriting. -/
theorem render_total_fallback :
    (∀ (fs : GoStr → Bool) (content reqPath baseDir : GoStr),
      ∃ out, processTemplateContent fs content reqPath baseDir = out) ∧
    (∀ (parse : GoStr → Option (List Tok))
       (exec : List Tok → (GoStr → Option TVal) → Option GoStr)
       (fs : GoStr → Bool) (content reqPath baseDir : GoStr),
      (parse content = none ∨
        ∃ toks, parse content = some toks ∧
          exec toks (templateDataLookup (computeBaseURL reqPath)) = none) →
      processTemplateContentWith parse exec fs content reqPath baseDir
        = processAssetPaths fs (fallbackReplace content (computeBaseURL reqPath))
            reqPath baseDir) := by
  refine ⟨fun fs c r b => ⟨_, rfl⟩, fun parse exec fs c r b h => ?_⟩
  unfold processTemplateContentWith
  simp only []
  rcases h with h | ⟨toks, h1, h2⟩
  · rw [h]
  · simp only [h1, h2]

/-- Witness for C5: a parse-accepted document whose execution fails is
rendered through the raw fallback followed by asset rewriting. -/
theorem render_total_fallback_witness :
    processTemplateContentWith parseTemplate (fun _ _ => none) fsNone
        (goStr "\x7b\x7b.From\x7d\x7d") (goStr "email.html") (goStr "/base")
      = processAssetPaths fsNone
          (fallbackReplace (goStr "\x7b\x7b.From\x7d\x7d")
            (computeBaseURL (goStr "email.html")))
          (goStr "email.html") (goStr "/base") :=
  render_total_fallback.2 parseTemplate (fun _ _ => none) fsNone
    (goStr "\x7b\x7b.From\x7d\x7d") (goStr "email.html") (goStr "/base")
    (Or.inr ⟨[Tok.ref (goStr "From")], rfl, rfl⟩)

/-! ### C6: escaping of variables -/

set_option maxRecDepth 8192 in
/-- C6: rendering a document referencing `FirstName` yields the literal text
`John`; rendering a document referencing `Tracker` yields the tracking
markup verbatim and unescaped (including its `<img>` tag); every bound
variable other than `Tracker` is bound as text, and text bindings are
injected HTML-escaped. -/
theorem tracker_unescaped :
    processTemplateContent fsNone (goStr "\x7b\x7b.FirstName\x7d\x7d")
        (goStr "email.html") (goStr "/base") = goStr "John" ∧
    processTemplateContent fsNone (goStr "\x7b\x7b.Tracker\x7d\x7d")
        (goStr "email.html") (goStr "/base")
      = goStr "<img src=\"https://phishing.test/opened/unique-id\" alt=\"\" width=\"1\" height=\"1\" border=\"0\" style=\"height:1px !important;width:1px\" />" ∧
    (∀ pv ∈ templateDataList, pv.1 ≠ goStr "Tracker" → isTextVal pv.2 = true) ∧
    (∀ (baseURL name v : GoStr),
      templateDataLookup baseURL name = some (.text v) →
      execTemplate [Tok.ref name] (templateDataLookup baseURL)
        = some (htmlEscapeString v)) := by
  refine ⟨rfl, rfl, ?_, fun baseURL name v h => ?_⟩
  · have hall : templateDataList.all
        (fun pv => (pv.1 == goStr "Tracker") || isTextVal pv.2) = true := rfl
    intro pv hpv hne
    have h := List.all_eq_true.mp hall pv hpv
    simp only [Bool.or_eq_true, beq_iff_eq] at h
    rcases h with h | h
    · exact absurd h hne
    · exact h
  · unfold execTemplate
    simp [h]

/-- Witness for C6: the `FirstName` binding is a text binding and is injected
through the HTML escaper. -/
theorem tracker_unescaped_witness :
    isTextVal (TVal.text (goStr "John")) = true ∧
    execTemplate [Tok.ref (goStr "FirstName")] (templateDataLookup (goStr "/templates"))
      = some (htmlEscapeString (goStr "John")) :=
  ⟨tracker_unescaped.2.2.1 (goStr "FirstName", TVal.text (goStr "John")) (by decide)
      (by decide),
    tracker_unescaped.2.2.2 (goStr "/templates") (goStr "FirstName") (goStr "John") rfl⟩

/-! ### C7: per-request recomputation of BaseURL -/

/-- C7: the per-request data always binds `BaseURL` to the value computed
from the request path's containing directory (overriding the static table
value), and rendering the same body under `a/email.html` and
`b/c/email.html` yields `/templates/a` and `/templates/b/c` respectively,
for every filesystem. -/
theorem baseURL_recomputed :
    (∀ reqPath : GoStr,
      templateDataLookup (computeBaseURL reqPath) (goStr "BaseURL")
        = some (.text (computeBaseURL reqPath))) ∧
    (∀ fs : GoStr → Bool,
      processTemplateContent fs (goStr "\x7b\x7b.BaseURL\x7d\x7d")
          (goStr "a/email.html") (goStr "/base") = goStr "/templates/a") ∧
    (∀ fs : GoStr → Bool,
      processTemplateContent fs (goStr "\x7b\x7b.BaseURL\x7d\x7d")
          (goStr "b/c/email.html") (goStr "/base") = goStr "/templates/b/c") :=
  ⟨fun _ => rfl, fun _ => rfl, fun _ => rfl⟩

/-! ### C9: attribute coverage of asset rewriting -/

/-- C9 counterexample: a double-quoted scheme-relative `src` value is
modified by rewriting (its leading `//` is collapsed and the value is then
rewritten to a server-local path); an `action` value is not rewritten by
the fallback logic even when the referenced file exists in the template
directory; and attribute-shaped text inside a `<script>` body is rewritten
— refuting the skip-list purity, the `action=` coverage of the fallback
rewriting, and the restriction of rewriting to attribute values. -/
theorem asset_rewrite_coverage_cex :
    processAssetPaths fsNone (goStr "src=\"//cdn/x.js\"") (goStr "email.html") (goStr "/base")
      = goStr "src=\"/templates/cdn/x.js\"" ∧
    goStr "src=\"/templates/cdn/x.js\"" ≠ goStr "src=\"//cdn/x.js\"" ∧
    processAssetPaths fsBothLogo (goStr "action=\"logo.png\"") (goStr "tpl/email.html")
        (goStr "/base") = goStr "action=\"logo.png\"" ∧
    processAssetPaths fsNone (goStr "<script>href=\"//cdn/x\"</script>")
        (goStr "email.html") (goStr "/base")
      = goStr "<script>href=\"/templates/cdn/x\"</script>" ∧
    goStr "<script>href=\"/templates/cdn/x\"</script>"
      ≠ goStr "<script>href=\"//cdn/x\"</script>" :=
  ⟨rfl, by decide, rfl, rfl, by decide⟩

/-- C9 amended: both rewriting passes are blind substring matches over
attribute-shaped text: the slash-collapsing pass matches `src=`/`href=`/
`action=` shaped substrings and the existence-probing fallback pass matches
only `src=`/`href=` shaped substrings — anywhere in the document, including
inside script bodies, while script text without attribute-shaped substrings
(such as plain line comments) is unaffected.  An `action=` value is
slash-collapsed but never fallback-rewritten.  A fallback match whose value
starts with `http://`, `https://`, `//`, `data:` or `#` is returned
unchanged (for every filesystem, directory, attribute, quoting and value),
and `http://`/`https://`/`data:`/fragment values pass through the whole
pipeline unchanged when they contain no slash runs; a double-quoted
scheme-relative value instead has its leading `//` collapsed by the literal
pre-replacement and is then rewritten as a server-local path. -/
theorem asset_rewrite_coverage :
    (∀ (fs : GoStr → Bool) (templateDir baseDir attr pth : GoStr) (q1 q2 : Nat),
      ((goStr "http://").isPrefixOf pth || (goStr "https://").isPrefixOf pth
        || (goStr "//").isPrefixOf pth || (goStr "data:").isPrefixOf pth
        || (goStr "#").isPrefixOf pth) = true →
      rewriteAttrPath fs templateDir baseDir attr q1 pth q2
        = attr ++ 61 :: q1 :: pth ++ [q2]) ∧
    processAssetPaths fsNone (goStr "action=\"/a//b.html\"") (goStr "email.html")
        (goStr "/base") = goStr "action=\"/a/b.html\"" ∧
    processAssetPaths fsNone (goStr "<script>// note\n</script>") (goStr "email.html")
        (goStr "/base") = goStr "<script>// note\n</script>" ∧
    processAssetPaths fsNone (goStr "src=\"https://x.test/a.png\"") (goStr "email.html")
        (goStr "/base") = goStr "src=\"https://x.test/a.png\"" ∧
    processAssetPaths fsNone (goStr "src=\"data:image/png;base64,AA\"") (goStr "email.html")
        (goStr "/base") = goStr "src=\"data:image/png;base64,AA\"" ∧
    processAssetPaths fsNone (goStr "href=\"#frag\"") (goStr "email.html")
        (goStr "/base") = goStr "href=\"#frag\"" ∧
    processAssetPaths fsNone (goStr "src=\"//cdn/x.js\"") (goStr "email.html")
        (goStr "/base") = goStr "src=\"/templates/cdn/x.js\"" ∧
    processAssetPaths fsBothLogo (goStr "action=\"logo.png\"") (goStr "tpl/email.html")
        (goStr "/base") = goStr "action=\"logo.png\"" ∧
    processAssetPaths fsNone (goStr "<script>href=\"//cdn/x\"</script>")
        (goStr "email.html") (goStr "/base")
      = goStr "<script>href=\"/templates/cdn/x\"</script>" := by
  refine ⟨?_, rfl, rfl, rfl, rfl, rfl, rfl, rfl, rfl⟩
  intro fs templateDir baseDir attr pth q1 q2 h
  unfold rewriteAttrPath
  simp only []
  simp only [Bool.or_eq_true] at h
  rw [if_pos]
  tauto

/-- Witness for C9: an `https://` value is returned unchanged by the
fallback rewrite. -/
theorem asset_rewrite_coverage_witness :
    rewriteAttrPath fsNone (goStr ".") (goStr "/base") (goStr "src") 34
        (goStr "https://x.test/a.png") 34
      = goStr "src" ++ 61 :: 34 :: goStr "https://x.test/a.png" ++ [34] :=
  asset_rewrite_coverage.1 fsNone (goStr ".") (goStr "/base") (goStr "src")
    (goStr "https://x.test/a.png") 34 34 (by decide)

/-! ### C2: literal resolution scenarios -/

/-- C2: the five literal resolution scenarios of the spec hold for every
working directory: `../etc/passwd`, `%2e%2e%2f` and `a/b/../c/file.html` are
rejected, `sub/dir/file.html` resolves to `/base/sub/dir/file.html`, and the
empty path resolves to `/base`. -/
theorem validatePath_literal_scenarios :
    ∀ cwd : GoStr,
      (∃ e, validatePath cwd (goStr "/base") (goStr "../etc/passwd") = .error e) ∧
      (∃ e, validatePath cwd (goStr "/base") (goStr "%2e%2e%2f") = .error e) ∧
      (∃ e, validatePath cwd (goStr "/base") (goStr "a/b/../c/file.html") = .error e) ∧
      validatePath cwd (goStr "/base") (goStr "sub/dir/file.html")
        = .ok (goStr "/base/sub/dir/file.html") ∧
      validatePath cwd (goStr "/base") (goStr "") = .ok (goStr "/base") :=
  fun _ => ⟨⟨.traversalDetected, rfl⟩, ⟨.traversalDetected, rfl⟩,
    ⟨.traversalDetected, rfl⟩, rfl, rfl⟩

end Templates
